import Mathlib

/-!
Verification of the argilla repository fragment: the `BaseTableInfo.vue`
sortable/filterable table, the `BaseButton.vue` `newRel` computed property,
the `evaluate_records` / listener active-learning notebook code, and the
`dataset_backupper` DVC backup loop.  JavaScript and Python code is shallowly
embedded: numbers are modelled as exact rationals (the tutorial scores and
table cell values are small decimals, for which rational comparison agrees
with IEEE double comparison), JS `undefined` and `null` are explicit
values, and code that can throw returns `Option`.
-/

namespace Argilla

/-- A JavaScript value, restricted to the shapes that flow through the table
component: strings, numbers (exact rationals), booleans, `undefined`,
`null`, and plain objects (insertion-ordered string-keyed fields).  Nested
arrays are not needed by any theorem below and are omitted. -/
inductive JValue where
  | vStr (s : String)
  | vNum (q : ℚ)
  | vBool (b : Bool)
  | vUndef
  | vNull
  | vObj (fields : List (String × JValue))

/-- An item (row) of the table: a JS object, as an insertion-ordered
association list. -/
abbrev Item := List (String × JValue)

/-- JS property read `item[key]`: first binding wins, a missing key yields
`undefined`. -/
def itemGet (item : Item) (key : String) : JValue :=
  match item.find? (fun p => p.1 == key) with
  | some p => p.2
  | none => JValue.vUndef

/-- Property read on an arbitrary value (used for `filter.value` /
`filter.key` in `matchFilters`): only plain objects carry own properties
here; reading a property of a primitive yields `undefined`. -/
def propGet : JValue → String → JValue
  | JValue.vObj fields, k => itemGet fields k
  | _, _ => JValue.vUndef

/-- JS truthiness for the value subset: `""`, `0`, `false`, `undefined` and
`null` are falsy, objects are truthy. -/
def jsTruthy : JValue → Bool
  | JValue.vStr s => s ≠ ""
  | JValue.vNum q => q ≠ 0
  | JValue.vBool b => b
  | JValue.vUndef => false
  | JValue.vNull => false
  | JValue.vObj _ => true

/-- JS strict equality `===` on the value subset.  Two values of different
types are never strictly equal (in particular `null === undefined` is
false); two objects are compared by reference in JS, and distinct object
literals (the only object values a value embedding can express) are never
the same reference, hence `false`. -/
def jsStrictEq : JValue → JValue → Bool
  | JValue.vStr a, JValue.vStr b => a == b
  | JValue.vNum a, JValue.vNum b => a == b
  | JValue.vBool a, JValue.vBool b => a == b
  | JValue.vUndef, JValue.vUndef => true
  | JValue.vNull, JValue.vNull => true
  | _, _ => false

/-- Decimal rendering of an integer, as JS does. -/
def intToString (i : ℤ) : String :=
  if i < 0 then "-" ++ toString i.natAbs else toString i.natAbs

/-- Number-to-string conversion.  Integers are rendered exactly as JS does;
for non-integers JS prints the shortest round-tripping double, which has no
exact counterpart on rationals, so the fallback rendering below is a model
choice (no theorem in this file depends on it). -/
def numToString (q : ℚ) : String :=
  if q.den = 1 then intToString q.num
  else intToString q.num ++ "/" ++ toString q.den

/-- The total string conversion `String(v)` (also the JS `ToString` used
for property-key coercion): `undefined` renders as `"undefined"`, `null` as
`"null"`, and plain objects as `"[object Object]"`. -/
def jsToString : JValue → String
  | JValue.vStr s => s
  | JValue.vNum q => numToString q
  | JValue.vBool b => if b then "true" else "false"
  | JValue.vObj _ => "[object Object]"
  | JValue.vUndef => "undefined"
  | JValue.vNull => "null"

/-- The method call `v.toString()`: throws a `TypeError` when `v` is
`undefined` or `null`, hence `none`. -/
def jsToStringM (v : JValue) : Option String :=
  match v with
  | JValue.vUndef => none
  | JValue.vNull => none
  | v => some (jsToString v)

/-- Does the character list start with the given pattern? -/
def startsWithL : List Char → List Char → Bool
  | [], _ => true
  | _ :: _, [] => false
  | p :: ps, c :: cs => p == c && startsWithL ps cs

/-- Does the character list contain the pattern as a contiguous sublist? -/
def hasSubL (l pat : List Char) : Bool :=
  match l with
  | [] => pat.isEmpty
  | _ :: rest => startsWithL pat l || hasSubL rest pat

/-- JS `String.prototype.includes`. -/
def strIncludes (s pat : String) : Bool :=
  hasSubL s.data pat.data

/-- JS `String.prototype.toLowerCase`, for the ASCII range (the Unicode
case table is irrelevant to every value in this development). -/
def toLowerStr (s : String) : String :=
  String.mk (s.data.map Char.toLower)

/-- Is the character one of the common whitespace forms stripped by JS
`String.prototype.trim`? -/
def isWsChar (c : Char) : Bool :=
  c == ' ' || c == '\t' || c == '\n' || c == '\r'

/-- JS `String.prototype.trim` (common whitespace subset). -/
def trimStr (s : String) : String :=
  String.mk (((s.data.dropWhile isWsChar).reverse.dropWhile isWsChar).reverse)

/-- Digit run value, e.g. `digitsVal ['4','2'] = 42`. -/
def digitsVal (ds : List Char) : Nat :=
  ds.foldl (fun a c => a * 10 + (c.toNat - 48)) 0

/-- Parse an unsigned JS decimal literal `digits [. digits]` or `. digits`;
`none` is NaN.  (Exponent and hex forms of the JS grammar are omitted: no
value in this development uses them.) -/
def parseUnsigned (cs : List Char) : Option ℚ :=
  let ip := cs.takeWhile (fun c => c.isDigit)
  let rest := cs.dropWhile (fun c => c.isDigit)
  match rest with
  | [] => if ip.isEmpty then none else some (digitsVal ip : ℚ)
  | '.' :: rest2 =>
    let fp := rest2.takeWhile (fun c => c.isDigit)
    let rest3 := rest2.dropWhile (fun c => c.isDigit)
    if !rest3.isEmpty then none
    else if ip.isEmpty && fp.isEmpty then none
    else some ((digitsVal ip : ℚ) + (digitsVal fp : ℚ) / ((10 : ℚ) ^ fp.length))
  | _ => none

/-- JS `ToNumber` on a string: trimmed empty string is `0`, otherwise an
optionally signed decimal literal; anything else is NaN (`none`). -/
def jsStringToNum (s : String) : Option ℚ :=
  let t := trimStr s
  if t = "" then some 0
  else match t.data with
    | '-' :: rest => (parseUnsigned rest).map (fun q => -q)
    | '+' :: rest => parseUnsigned rest
    | cs => parseUnsigned cs

/-- JS `ToPrimitive` with number hint, as used by the relational operators:
plain objects fall through `valueOf` to `toString`, giving
`"[object Object]"`; primitives are returned unchanged. -/
def toPrim : JValue → JValue
  | JValue.vObj _ => JValue.vStr "[object Object]"
  | v => v

/-- JS `ToNumber` on a primitive; `none` is NaN.  Note `Number(null) = 0`
while `Number(undefined)` is NaN. -/
def toNum : JValue → Option ℚ
  | JValue.vNum q => some q
  | JValue.vStr s => jsStringToNum s
  | JValue.vBool b => some (if b then 1 else 0)
  | JValue.vUndef => none
  | JValue.vNull => some 0
  | JValue.vObj _ => none

/-- The JS abstract relational comparison `a < b`: if both primitives are
strings they are compared lexicographically (Lean compares scalar values,
JS UTF-16 units; these agree on the basic plane), otherwise both sides are
converted to numbers and a NaN on either side makes the comparison false. -/
def jsLt (a b : JValue) : Bool :=
  match toPrim a, toPrim b with
  | JValue.vStr x, JValue.vStr y => decide (x < y)
  | pa, pb =>
    match toNum pa, toNum pb with
    | some x, some y => decide (x < y)
    | _, _ => false

/-- Stable insertion of `x` into `ys` under a three-way comparator: `x` goes
before the first element it does not compare greater than. -/
def insertCmp (cmp : α → α → Int) (x : α) : List α → List α
  | [] => [x]
  | y :: ys => if cmp x y ≤ 0 then x :: y :: ys else y :: insertCmp cmp x ys

/-- Model of `Array.prototype.sort` with a comparator: a stable sort that
follows the comparator contract (negative keeps the left element first).
Engines use TimSort; for a consistent comparator the result is the same. -/
def sortCmp (cmp : α → α → Int) : List α → List α
  | [] => []
  | x :: xs => insertCmp cmp x (sortCmp cmp xs)

/-! ## BaseTableInfo.vue -/

/-- One entry of the `activeFilters` prop: `{ column, values }`. -/
structure ActiveFilter where
  column : String
  values : List JValue

/-- The props of `BaseTableInfo` that take part in filtering and sorting.
Presentational props (`actions`, `columns`, `noDataInfo`, modal props, ...)
are omitted: the computed properties under study never read them.
String props without a `default` are `undefined` when absent, hence
`Option String`. -/
structure TableProps where
  data : List Item
  searchOn : Option String
  sortedOrder : String
  sortedByField : Option String
  querySearch : Option String
  activeFilters : List ActiveFilter

/-- The component's `data()` fields. -/
structure TableState where
  sortOrder : String
  visibleActions : Bool
  sortedBy : Option String
  allRecordsSelected : Bool
  selectedItems : List Item
  filters : List (String × List JValue)

/-- A column object, reduced to the one field the `sort` method reads. -/
structure Column where
  field : String

/-- Vue `$set` on a plain object: overwrite an existing key in place or
append a new one. -/
def objSet (m : List (String × α)) (k : String) (v : α) : List (String × α) :=
  if m.any (fun p => p.1 == k) then
    m.map (fun p => if p.1 == k then (k, v) else p)
  else m ++ [(k, v)]

/-- The state right after `data()` and the `beforeMount` hook: `sortOrder`
is seeded from the `sortedOrder` prop, `sortedBy` from `sortedByField`, and
`filters` from the `activeFilters` entries with a non-empty `values` list. -/
def mountedState (props : TableProps) : TableState :=
  { sortOrder := props.sortedOrder
    visibleActions := true
    sortedBy := props.sortedByField
    allRecordsSelected := false
    selectedItems := []
    filters :=
      (props.activeFilters.filter (fun f => !f.values.isEmpty)).foldl
        (fun m f => objSet m f.column f.values) [] }

/-- The `matchSearch` closure of `filteredResults`.  When `querySearch` is
defined and `searchOn` is truthy (a non-empty string), the item value at
`searchOn` is read and `.toString()` is called on it — which throws
(`none`) when that value is `undefined`. -/
def matchSearch (props : TableProps) (item : Item) : Option Bool :=
  match props.querySearch with
  | none => some true
  | some q =>
    let querySearch := toLowerStr q
    match props.searchOn with
    | some so =>
      if so ≠ "" then
        (jsToStringM (itemGet item so)).map
          (fun s => strIncludes (toLowerStr s) querySearch)
      else some false
    | none => some false

/-- One conjunct of `matchFilters`: when the item value at the filter column
is a plain object, `find` looks for a filter entry `f` with
`f.value === item[key][f.key]` and the result of `every`'s callback is the
truthiness of the found entry; otherwise `includes(item[key])`. -/
def filterEntryMatches (item : Item) (k : String) (vals : List JValue) : Bool :=
  match itemGet item k with
  | JValue.vObj fields =>
    match vals.find? (fun f =>
        jsStrictEq (propGet f "value")
          (itemGet fields (jsToString (propGet f "key")))) with
    | some f => jsTruthy f
    | none => false
  | iv => vals.any (fun v => jsStrictEq v iv)

/-- The `matchFilters` closure: `this.filters` is an object and hence always
truthy, so only the `Object.keys(...).every(...)` branch is live. -/
def matchFilters (filters : List (String × List JValue)) (item : Item) : Bool :=
  filters.all (fun e => filterEntryMatches item e.1 e.2)

/-- The `itemComparator` closure: direction is read from the `sortedOrder`
prop, the sort key from the `sortedBy` data field (an undefined `sortedBy`
is coerced to the property key `"undefined"` by JS). -/
def itemComparator (props : TableProps) (sortedBy : Option String)
    (a b : Item) : Int :=
  let modifier : Int := if props.sortedOrder == "desc" then -1 else 1
  let key := match sortedBy with | some s => s | none => "undefined"
  if jsLt (itemGet a key) (itemGet b key) then -1 * modifier
  else if jsLt (itemGet b key) (itemGet a key) then 1 * modifier
  else 0

/-- JS `Array.prototype.filter` with a predicate that can throw: elements
are tested left to right and the first throw aborts the whole call. -/
def filterOpt (p : α → Option Bool) : List α → Option (List α)
  | [] => some []
  | x :: xs => do
    let b ← p x
    let rest ← filterOpt p xs
    pure (if b then x :: rest else rest)

/-- The `filteredResults` computed property:
`this.data.filter(matchSearch).filter(matchFilters).sort(itemComparator)`.
`none` models a thrown exception. -/
def filteredResults (props : TableProps) (st : TableState) :
    Option (List Item) :=
  (filterOpt (matchSearch props) props.data).map
    (fun results =>
      sortCmp (itemComparator props st.sortedBy)
        (results.filter (matchFilters st.filters)))

/-- The `tableIsEmpty` computed property:
`this.filteredResults && this.filteredResults.length === 0`.  An array is
always truthy (even when empty), so this is the length test. -/
def tableIsEmpty (props : TableProps) (st : TableState) : Option Bool :=
  (filteredResults props st).map List.isEmpty

/-- The `sort(column)` method.  The `$emit` has no local effect; then
`this.sortedBy = column.field`, and the guard `column.field === this.sortedBy`
compares against the just-assigned value, so the `sortOrder` toggle always
fires. -/
def sort (col : Column) (st : TableState) : TableState :=
  let st1 := { st with sortedBy := some col.field }
  if (some col.field : Option String) == st1.sortedBy then
    { st1 with sortOrder := if st1.sortOrder == "asc" then "desc" else "asc" }
  else st1

/-! ## Spec-side definitions (refinement targets)

The following definitions follow the words of the specification claims, to
be compared with the code-derived definitions above. -/

/-- Truthiness of an optional string prop (`undefined` and `""` are
falsy). -/
def strTruthy : Option String → Bool
  | none => false
  | some s => s ≠ ""

/-- The `newRel` computed property of `BaseButton`:
`target === "_blank" ? (rel || "noopener") : rel`. -/
def newRel (target rel : Option String) : Option String :=
  if target == some "_blank" then
    (if strTruthy rel then rel else some "noopener")
  else rel

/-! ## Active-learning notebook: `evaluate_records` -/

/-- A text-classification record as the notebook manipulates it.  Scores
are exact rationals; every score compared against the `0.9` threshold in
the tutorial is a short decimal, for which rational and double comparison
agree. -/
structure TCRecord where
  text : String
  annotation : Option String
  status : String
  prediction : List (String × ℚ)
  metadata : List (String × Nat)
deriving DecidableEq, Repr

/-- `NUM_SAMPLES_PER_LOOP` from the notebook. -/
def NUM_SAMPLES_PER_LOOP : Nat := 5

/-- `CERTAINTY_THRESHOLD` from the notebook. -/
def CERTAINTY_THRESHOLD : ℚ := mkRat 9 10

/-- Python `max(pred, key=lambda item: item[1])`: the first pair with
maximal second component; raises (`none`) on an empty list. -/
def pyMaxBySnd : List (String × ℚ) → Option (String × ℚ)
  | [] => none
  | x :: xs => some (xs.foldl (fun acc y => if y.2 > acc.2 then y else acc) x)

/-- One turn of the `for pred, rec in zip(predictions, records)` body of
`evaluate_records`: auto-validate iff the top score strictly exceeds the
threshold, then always overwrite `prediction` and `metadata`. -/
def evaluateOne (idx : Nat) (pred : List (String × ℚ)) (rec : TCRecord) :
    Option TCRecord := do
  let m ← pyMaxBySnd pred
  let rec1 :=
    if m.2 > CERTAINTY_THRESHOLD then
      { rec with annotation := some m.1, status := "Validated" }
    else rec
  pure { rec1 with prediction := pred, metadata := [("idx", idx)] }

/-- `evaluate_records(records, idx=0)` from the notebook.  The classifier
pipe is a pure parameter mapping each text to its label/score list
(`list(pred.items())`). -/
def evaluate_records (classify : String → List (String × ℚ))
    (records : List TCRecord) (idx : Nat := 0) : Option (List TCRecord) :=
  let texts := records.map (fun rec => rec.text)
  let predictions := texts.map classify
  (predictions.zip records).mapM (fun pr => evaluateOne idx pr.1 pr.2)

/-! ## Active-learning notebook: dataset setup and listener -/

/-- The dataset-setup statements
`try: rg.delete(DATASET_NAME) except Exception: pass` — given the outcome
of the `rg.delete` call, the cell completes normally either way because the
handler catches every `Exception` and does nothing. -/
def deleteDatasetStep (deleteResult : Except String Unit) :
    Except String Unit :=
  match deleteResult with
  | Except.ok _ => Except.ok ()
  | Except.error _ => Except.ok ()

/-- The result object of the listener's query; only `total` is read by the
notebook's condition. -/
structure SearchResult where
  total : Nat
deriving DecidableEq, Repr

/-- Configuration captured by the `@listener(...)` decorator call in the
notebook. -/
structure ListenerConfig where
  executionIntervalInSeconds : Nat
  condition : SearchResult → Bool

/-- Modelled from the spec: the listener implementation lives in the client
SDK, which is not among the provided files; per the spec it is "a
decorator-based polling listener that re-queries an external server on a
fixed interval".  The n-th poll happens `n` intervals after start. -/
def listenerPollTime (cfg : ListenerConfig) (n : Nat) : Nat :=
  n * cfg.executionIntervalInSeconds

/-- Modelled from the spec: on each poll the listener evaluates the
configured condition on the query result and executes the decorated body
exactly when it holds.  `results n` is the server's answer to the n-th
re-query. -/
def listenerBodyRuns (cfg : ListenerConfig) (results : Nat → SearchResult)
    (n : Nat) : Bool :=
  cfg.condition (results n)

/-- The decorator arguments of `active_learning_loop`:
`condition=lambda search: search.total == NUM_SAMPLES_PER_LOOP` and
`execution_interval_in_seconds=1`. -/
def activeLearningListener : ListenerConfig :=
  { executionIntervalInSeconds := 1
    condition := fun search => search.total == NUM_SAMPLES_PER_LOOP }

/-! ## DVC backup notebook: `dataset_backupper` -/

/-- One effectful operation of the `dataset_backupper` loop body. -/
inductive BackupOp where
  | exportDs (dataset : String) (file : String)
  | sys (cmd : String)
  | sleep (seconds : Nat)
deriving DecidableEq, Repr

/-- A statement of the loop body, as far as control flow is concerned: an
operation, or one of the statements that would leave the loop (`break`,
`return`) — the source body contains none of the latter. -/
inductive BStmt where
  | op (o : BackupOp)
  | brk
  | ret
deriving DecidableEq, Repr

/-- `BACKUP_DEFAULT_DURATION`: the default of the `duration` parameter,
`60*60*24` seconds. -/
def backupperDefaultDuration : Nat := 60 * 60 * 24

/-- The statements of one iteration of `while True:` in
`dataset_backupper(datasets, duration)`, in source order: export each named
dataset to `data/<name>.pkl`, run `dvc add` on each globbed `.pkl` file
(`files` stands for the result of `glob.glob('data/*.pkl')`), then
`dvc push`, `git commit`, `git push`, then `time.sleep(duration)`. -/
def backupperBody (datasets files : List String) (duration : Nat) :
    List BStmt :=
  (datasets.map (fun name =>
      BStmt.op (BackupOp.exportDs name ("data/" ++ name ++ ".pkl"))))
    ++ (files.map (fun file => BStmt.op (BackupOp.sys ("dvc add " ++ file))))
    ++ [BStmt.op (BackupOp.sys "dvc push"),
        BStmt.op (BackupOp.sys "git commit -m \x27update DVC files\x27"),
        BStmt.op (BackupOp.sys "git push"),
        BStmt.op (BackupOp.sleep duration)]

/-- Control state of the function: inside the loop with the remaining
statements of the current iteration, or past the loop (returned). -/
inductive BConfig where
  | inLoop (rest : List BStmt)
  | done
deriving DecidableEq, Repr

/-- Small-step control semantics of `while True: body`: an exhausted
iteration re-enters the loop, `break`/`return` would leave it, and any
other statement just advances. -/
def backupperStep (body : List BStmt) : BConfig → BConfig
  | BConfig.done => BConfig.done
  | BConfig.inLoop [] => BConfig.inLoop body
  | BConfig.inLoop (BStmt.brk :: _) => BConfig.done
  | BConfig.inLoop (BStmt.ret :: _) => BConfig.done
  | BConfig.inLoop (BStmt.op _ :: rest) => BConfig.inLoop rest

/-- The control state of `dataset_backupper(datasets, duration)` after `n`
steps. -/
def dataset_backupper (datasets files : List String) (duration : Nat)
    (n : Nat) : BConfig :=
  (backupperStep (backupperBody datasets files duration))^[n]
    (BConfig.inLoop (backupperBody datasets files duration))

/-- Is a statement an operation (as opposed to a loop exit)? -/
def BStmt.isOp : BStmt → Bool
  | BStmt.op _ => true
  | _ => false

/-- Is the operation one of the dataset exports? -/
def isExportOp : BStmt → Bool
  | BStmt.op (BackupOp.exportDs _ _) => true
  | _ => false

/-- Is the operation one of the per-file `dvc add` invocations? -/
def isDvcAddOp : BStmt → Bool
  | BStmt.op (BackupOp.sys c) => startsWithL "dvc add ".data c.data
  | _ => false

/-! ## Per-record contract of `evaluate_records` -/

/-- Relation between an input record and the corresponding output record of
`evaluate_records`: the top-scoring prediction exists; `prediction` and
`metadata` are always overwritten; the record is auto-validated (annotation
set to the argmax label, status to `"Validated"`) exactly when the top
score strictly exceeds the certainty threshold, and otherwise keeps its
annotation and status. -/
def evalRecProp (classify : String → List (String × ℚ)) (idx : Nat)
    (rec orec : TCRecord) : Prop :=
  ∃ m, pyMaxBySnd (classify rec.text) = some m ∧
    orec.prediction = classify rec.text ∧
    orec.metadata = [("idx", idx)] ∧
    orec.text = rec.text ∧
    (m.2 > CERTAINTY_THRESHOLD →
      orec.annotation = some m.1 ∧ orec.status = "Validated") ∧
    (¬ m.2 > CERTAINTY_THRESHOLD →
      orec.annotation = rec.annotation ∧ orec.status = rec.status)

/-! ## Concrete inputs used by witnesses and counterexamples -/

/-- A row whose search column is present. -/
def wItemBanana : Item :=
  [("name", JValue.vStr "Banana"), ("count", JValue.vNum 3)]

/-- A second row. -/
def wItemApple : Item :=
  [("name", JValue.vStr "apple"), ("count", JValue.vNum 1)]

/-- A third row. -/
def wItemMango : Item :=
  [("name", JValue.vStr "Mango"), ("count", JValue.vNum 2)]

/-- Props on which the search predicate never hits an undefined value. -/
def wTableProps : TableProps :=
  { data := [wItemBanana, wItemApple, wItemMango]
    searchOn := some "name"
    sortedOrder := "desc"
    sortedByField := some "count"
    querySearch := some "an"
    activeFilters := [] }

/-- Classifier stub for the `evaluate_records` witness: one text is scored
far above the threshold, everything else is uncertain. -/
def wClassify : String → List (String × ℚ) := fun t =>
  if t == "sports text" then
    [("Sports", mkRat 95 100), ("World", mkRat 5 100)]
  else [("Sports", mkRat 1 2), ("World", mkRat 1 2)]

/-- Unlabelled record the stub classifier is certain about. -/
def wRecCertain : TCRecord :=
  { text := "sports text", annotation := none, status := "Default"
    prediction := [], metadata := [] }

/-- Unlabelled record the stub classifier is uncertain about. -/
def wRecUncertain : TCRecord :=
  { text := "other", annotation := none, status := "Default"
    prediction := [], metadata := [] }

/-- Expected output of `evaluate_records` for `wRecCertain`: auto-validated
with the argmax label. -/
def wOutCertain : TCRecord :=
  { text := "sports text", annotation := some "Sports"
    status := "Validated"
    prediction := [("Sports", mkRat 95 100), ("World", mkRat 5 100)]
    metadata := [("idx", 0)] }

/-- Expected output of `evaluate_records` for `wRecUncertain`: annotation
and status untouched, prediction and metadata overwritten. -/
def wOutUncertain : TCRecord :=
  { text := "other", annotation := none, status := "Default"
    prediction := [("Sports", mkRat 1 2), ("World", mkRat 1 2)]
    metadata := [("idx", 0)] }

/-! ## Helper lemmas -/

/-- When the JS predicate agrees with a total Boolean predicate on every
element, `filter` with the throwing predicate succeeds and agrees with the
plain filter. -/
theorem filterOpt_eq_filter (p : α → Option Bool) (q : α → Bool)
    (l : List α) (h : ∀ a ∈ l, p a = some (q a)) :
    filterOpt p l = some (l.filter q) := by
  induction l with
  | nil => rfl
  | cons x xs ih =>
    have hx : p x = some (q x) := h x (by simp)
    have ih' := ih (fun a ha => h a (by simp [ha]))
    simp only [filterOpt, hx, ih', Option.bind_eq_bind, Option.some_bind,
      List.filter_cons]
    cases q x <;> simp

/-- C3 counterexample: the dataset-setup cell of the active-learning
notebook wraps `rg.delete(DATASET_NAME)` in `try ... except Exception:
pass`, so a concrete exception raised by `rg.delete` does not propagate to
the caller: the cell completes normally. -/
theorem delete_exception_swallowed :
    deleteDatasetStep (Except.error "dataset not found") = Except.ok () ∧
    (Except.error "dataset not found" : Except String Unit) ≠
      Except.ok () := by
  exact ⟨rfl, by simp⟩

/-- C3 (amended): exceptions propagate unchanged from the demonstration
scripts except at one site: the active-learning notebook's dataset setup
suppresses every exception raised by `rg.delete(DATASET_NAME)` via
`except Exception: pass`, completing normally for every error value. -/
theorem deleteDatasetStep_suppresses :
    ∀ e : String, deleteDatasetStep (Except.error e) = Except.ok () :=
  fun _ => rfl

/-- C4: the notebook's listener is configured with
`execution_interval_in_seconds=1`, so consecutive polls of the external
server are 1 second apart, and on each poll the decorated body
`active_learning_loop` runs exactly when the configured condition holds,
namely when the query result count `search.total` equals
`NUM_SAMPLES_PER_LOOP`, which is 5.  (The listener semantics is modelled
from the spec; the decorator implementation lives in the client SDK outside
the provided sources.) -/
theorem active_learning_listener_spec :
    activeLearningListener.executionIntervalInSeconds = 1 ∧
    (∀ n : Nat, listenerPollTime activeLearningListener (n + 1)
        - listenerPollTime activeLearningListener n = 1) ∧
    (∀ (results : Nat → SearchResult) (n : Nat),
      listenerBodyRuns activeLearningListener results n
        = ((results n).total == NUM_SAMPLES_PER_LOOP)) ∧
    NUM_SAMPLES_PER_LOOP = 5 := by
  refine ⟨rfl, ?_, fun results n => rfl, rfl⟩
  intro n
  simp only [listenerPollTime, activeLearningListener]
  omega

/-- C9: for an anchor with `target="_blank"`, `BaseButton.newRel` is never
empty — it is the `rel` prop when that prop is truthy and `"noopener"`
otherwise; for every other target it is the `rel` prop unchanged. -/
theorem newRel_spec (rel target : Option String) :
    (target = some "_blank" →
      (∃ s, newRel target rel = some s ∧ s ≠ "") ∧
      (strTruthy rel = true → newRel target rel = rel) ∧
      (strTruthy rel = false → newRel target rel = some "noopener")) ∧
    (target ≠ some "_blank" → newRel target rel = rel) := by
  constructor
  · rintro rfl
    refine ⟨?_, ?_, ?_⟩
    · cases rel with
      | none => exact ⟨"noopener", by simp [newRel, strTruthy], by simp⟩
      | some s =>
        by_cases hs : s = ""
        · subst hs
          exact ⟨"noopener", by simp [newRel, strTruthy], by simp⟩
        · exact ⟨s, by simp [newRel, strTruthy, hs], hs⟩
    · intro ht; simp [newRel, strTruthy] at ht ⊢
      cases rel <;> simp_all [newRel, strTruthy]
    · intro ht; cases rel <;> simp_all [newRel, strTruthy]
  · intro ht
    simp [newRel, beq_iff_eq, ht]

/-- C9 witness: with `rel` unset the anchor gets `"noopener"`, and with a
non-`_blank` target the prop is passed through. -/
theorem newRel_spec_witness :
    (∃ s, newRel (some "_blank") none = some s ∧ s ≠ "") ∧
    newRel (some "other") (some "x") = some "x" :=
  ⟨((newRel_spec none (some "_blank")).1 rfl).1,
    (newRel_spec (some "x") (some "other")).2 (by simp)⟩

/-- C10: when `querySearch` is defined but `searchOn` is undefined, the
search predicate rejects every item, so `filteredResults` is the empty list
and `tableIsEmpty` is true, for every data array, state and active
filters. -/
theorem undefined_searchOn_all_rejected (dataL : List Item)
    (qs sOrd : String) (sbf : Option String) (af : List ActiveFilter)
    (st : TableState) :
    filteredResults
      { data := dataL, searchOn := none, sortedOrder := sOrd,
        sortedByField := sbf, querySearch := some qs,
        activeFilters := af } st = some [] ∧
    tableIsEmpty
      { data := dataL, searchOn := none, sortedOrder := sOrd,
        sortedByField := sbf, querySearch := some qs,
        activeFilters := af } st = some true := by
  have hf : filterOpt
      (matchSearch
        { data := dataL, searchOn := none, sortedOrder := sOrd,
          sortedByField := sbf, querySearch := some qs,
          activeFilters := af }) dataL
      = some (dataL.filter (fun _ => false)) :=
    filterOpt_eq_filter _ _ _ (fun a _ => rfl)
  constructor <;>
    simp [filteredResults, tableIsEmpty, hf, sortCmp]

/-- C7 counterexample: the repository does contain deterministic,
language-agnostic algorithmic behavior — the embedded
`BaseTableInfo.filteredResults` provably maps a concrete input to its
concrete searched, filtered and sorted output, and two runs on the same
input are provably equal. -/
theorem deterministic_behavior_exists :
    (filteredResults wTableProps (mountedState wTableProps)).map
        (fun l => l.map (fun item => jsToString (itemGet item "name")))
      = some ["Banana", "Mango"] ∧
    filteredResults wTableProps (mountedState wTableProps)
      = filteredResults wTableProps (mountedState wTableProps) :=
  ⟨by decide, rfl⟩

/-- C7 (amended): the table pipeline of `BaseTableInfo.vue` is a
deterministic function of its explicit inputs: two runs on equal inputs
yield equal outputs. -/
theorem filteredResults_deterministic (p p' : TableProps)
    (st st' : TableState) (hp : p = p') (hs : st = st') :
    filteredResults p st = filteredResults p' st' := by
  subst hp
  subst hs
  rfl

/-- C7 witness: determinism applied at a concrete input. -/
theorem filteredResults_deterministic_witness :
    filteredResults wTableProps (mountedState wTableProps)
      = filteredResults wTableProps (mountedState wTableProps) :=
  filteredResults_deterministic wTableProps wTableProps
    (mountedState wTableProps) (mountedState wTableProps) rfl rfl

/-- C8: `sort(column)` never changes the direction of the ordering used by
`filteredResults`.  It writes only `sortedBy` (to the clicked column's
field) and `sortOrder` — whose toggle fires unconditionally because the
guard compares `column.field` against the just-assigned `sortedBy` — while
the comparator's direction modifier reads only the `sortedOrder` prop, so
the results are exactly those of changing `sortedBy` alone. -/
theorem sort_never_changes_direction (props : TableProps)
    (st : TableState) (col : Column) :
    (sort col st).sortOrder
      = (if st.sortOrder == "asc" then "desc" else "asc") ∧
    (sort col st).sortedBy = some col.field ∧
    (sort col st).filters = st.filters ∧
    (sort col st).visibleActions = st.visibleActions ∧
    (sort col st).allRecordsSelected = st.allRecordsSelected ∧
    (sort col st).selectedItems = st.selectedItems ∧
    filteredResults props (sort col st)
      = filteredResults props { st with sortedBy := some col.field } := by
  cases st
  simp [sort, filteredResults]

/-- Pattern lists start with themselves. -/
theorem startsWithL_self_append (p q : List Char) :
    startsWithL p (p ++ q) = true := by
  induction p with
  | nil => rfl
  | cons c cs ih => simp [startsWithL, ih]

/-- The backup loop body consists of operations only: it contains no
`break` and no `return`. -/
theorem backupperBody_all_op (ds files : List String) (d : Nat) :
    (backupperBody ds files d).all BStmt.isOp = true := by
  simp [backupperBody, List.all_append, List.all_map, Function.comp,
    BStmt.isOp]

/-- Stepping from inside the loop with an exit-free body and exit-free
remaining statements stays inside the loop. -/
theorem backupperStep_preserves (body : List BStmt)
    (hbody : body.all BStmt.isOp = true) (rest : List BStmt)
    (hrest : rest.all BStmt.isOp = true) :
    ∃ rest', backupperStep body (BConfig.inLoop rest) = BConfig.inLoop rest'
      ∧ rest'.all BStmt.isOp = true := by
  cases rest with
  | nil => exact ⟨body, rfl, hbody⟩
  | cons s r =>
    cases s with
    | op o =>
      refine ⟨r, rfl, ?_⟩
      simpa [BStmt.isOp] using hrest
    | brk => simp [BStmt.isOp] at hrest
    | ret => simp [BStmt.isOp] at hrest

/-- Invariant: the control state of `dataset_backupper` is always inside
the loop, with exit-free remaining statements. -/
theorem dataset_backupper_inv (ds files : List String) (d n : Nat) :
    ∃ rest, dataset_backupper ds files d n = BConfig.inLoop rest
      ∧ rest.all BStmt.isOp = true := by
  induction n with
  | zero =>
    exact ⟨backupperBody ds files d, rfl, backupperBody_all_op ds files d⟩
  | succ n ih =>
    obtain ⟨rest, hr, ha⟩ := ih
    obtain ⟨rest', hs, ha'⟩ := backupperStep_preserves
      (backupperBody ds files d) (backupperBody_all_op ds files d) rest ha
    refine ⟨rest', ?_, ha'⟩
    have hstep : dataset_backupper ds files d (n + 1)
        = backupperStep (backupperBody ds files d)
            (dataset_backupper ds files d n) := by
      simp [dataset_backupper, Function.iterate_succ_apply']
    rw [hstep, hr, hs]

/-- Running through exit-free remaining statements consumes them one per
step. -/
theorem backupperRun_consumes (body : List BStmt) :
    ∀ rest : List BStmt, rest.all BStmt.isOp = true →
      (backupperStep body)^[rest.length] (BConfig.inLoop rest)
        = BConfig.inLoop [] := by
  intro rest
  induction rest with
  | nil => intro _; rfl
  | cons s r ih =>
    intro h
    cases s with
    | op o =>
      have hr : r.all BStmt.isOp = true := by simpa [BStmt.isOp] using h
      have : backupperStep body (BConfig.inLoop (BStmt.op o :: r))
          = BConfig.inLoop r := rfl
      simp only [List.length_cons, Function.iterate_succ_apply, this]
      exact ih hr
    | brk => simp [BStmt.isOp] at h
    | ret => simp [BStmt.isOp] at h

/-- C5: `dataset_backupper(datasets, duration)` is a sleep-and-repeat
polling loop that never returns: its control state is never past the loop;
each iteration exports every named dataset to `data/<name>.pkl`, invokes
the external `dvc` and `git` command-line tools, and its final statement is
`time.sleep(duration)` with `duration` defaulting to `60*60*24 = 86400`;
the body contains no exit statement, and after an iteration's statements
are exhausted the next step re-enters the body, so every iteration is
followed by another one. -/
theorem dataset_backupper_never_returns (ds files : List String)
    (d n : Nat) :
    dataset_backupper ds files d n ≠ BConfig.done ∧
    ds.all (fun name => (backupperBody ds files d).contains
      (BStmt.op (BackupOp.exportDs name ("data/" ++ name ++ ".pkl")))) = true ∧
    (backupperBody ds files d).contains
      (BStmt.op (BackupOp.sys "dvc push")) = true ∧
    (backupperBody ds files d).contains
      (BStmt.op (BackupOp.sys "git commit -m \x27update DVC files\x27")) = true ∧
    (backupperBody ds files d).contains
      (BStmt.op (BackupOp.sys "git push")) = true ∧
    (∃ pre, backupperBody ds files d
      = pre ++ [BStmt.op (BackupOp.sleep d)]) ∧
    backupperDefaultDuration = 86400 ∧
    (backupperBody ds files d).all BStmt.isOp = true ∧
    dataset_backupper ds files d ((backupperBody ds files d).length + 1)
      = BConfig.inLoop (backupperBody ds files d) := by
  refine ⟨?_, ?_, ?_, ?_, ?_, ?_, rfl, backupperBody_all_op ds files d, ?_⟩
  · obtain ⟨rest, hr, _⟩ := dataset_backupper_inv ds files d n
    rw [hr]
    exact fun hcontra => BConfig.noConfusion hcontra
  · refine List.all_eq_true.mpr (fun name hname => ?_)
    have hmem : BStmt.op (BackupOp.exportDs name ("data/" ++ name ++ ".pkl"))
        ∈ backupperBody ds files d := by
      unfold backupperBody
      refine List.mem_append.mpr (Or.inl (List.mem_append.mpr (Or.inl ?_)))
      exact List.mem_map.mpr ⟨name, hname, rfl⟩
    simpa [List.contains, List.elem_eq_mem] using hmem
  · simp [backupperBody, List.contains, List.elem_eq_mem]
  · simp [backupperBody, List.contains, List.elem_eq_mem]
  · simp [backupperBody, List.contains, List.elem_eq_mem]
  · refine ⟨(ds.map (fun name =>
        BStmt.op (BackupOp.exportDs name ("data/" ++ name ++ ".pkl"))))
      ++ (files.map (fun file => BStmt.op (BackupOp.sys ("dvc add " ++ file))))
      ++ [BStmt.op (BackupOp.sys "dvc push"),
          BStmt.op (BackupOp.sys "git commit -m \x27update DVC files\x27"),
          BStmt.op (BackupOp.sys "git push")], ?_⟩
    simp [backupperBody]
  · have hconsume := backupperRun_consumes (backupperBody ds files d)
      (backupperBody ds files d) (backupperBody_all_op ds files d)
    have hstep : dataset_backupper ds files d
        ((backupperBody ds files d).length + 1)
        = backupperStep (backupperBody ds files d)
            ((backupperStep (backupperBody ds files d))^[(backupperBody ds files d).length]
              (BConfig.inLoop (backupperBody ds files d))) := by
      simp [dataset_backupper, Function.iterate_succ_apply']
    rw [hstep, hconsume]
    rfl

/-- C5 witness: at a concrete argument list the loop is still running after
three steps. -/
theorem dataset_backupper_never_returns_witness :
    dataset_backupper ["argilla-dvc"] ["data/argilla-dvc.pkl"] 86400 3
      ≠ BConfig.done :=
  (dataset_backupper_never_returns ["argilla-dvc"] ["data/argilla-dvc.pkl"]
    86400 3).1

/-- C6 counterexample: at a concrete argument list the iteration body is a
fixed, fully ordered statement list — the export, then `dvc add`, then
`dvc push`, then `git commit`, then `git push`, then the sleep — so a fixed
order among these operations is guaranteed, contrary to the claim. -/
theorem backupper_iteration_order_fixed :
    backupperBody ["argilla-dvc"] ["data/argilla-dvc.pkl"] 86400 =
      [BStmt.op (BackupOp.exportDs "argilla-dvc" "data/argilla-dvc.pkl"),
       BStmt.op (BackupOp.sys "dvc add data/argilla-dvc.pkl"),
       BStmt.op (BackupOp.sys "dvc push"),
       BStmt.op (BackupOp.sys "git commit -m \x27update DVC files\x27"),
       BStmt.op (BackupOp.sys "git push"),
       BStmt.op (BackupOp.sleep 86400)] := by
  rfl

/-- C6 (amended): within one iteration of `dataset_backupper` the order of
operations is fixed by the source: first all dataset exports, then the
per-file `dvc add` invocations (over the globbed files, in glob order),
then `dvc push`, then `git commit`, then `git push`, then the sleep.  Only
the enumeration order of the globbed files within the `dvc add` block is
environment-dependent. -/
theorem backupperBody_phases (ds files : List String) (d : Nat) :
    ∃ E A : List BStmt,
      backupperBody ds files d
        = E ++ A ++ [BStmt.op (BackupOp.sys "dvc push"),
            BStmt.op (BackupOp.sys "git commit -m \x27update DVC files\x27"),
            BStmt.op (BackupOp.sys "git push"),
            BStmt.op (BackupOp.sleep d)] ∧
      E.all isExportOp = true ∧ A.all isDvcAddOp = true ∧
      E.length = ds.length ∧ A.length = files.length := by
  refine ⟨ds.map (fun name =>
      BStmt.op (BackupOp.exportDs name ("data/" ++ name ++ ".pkl"))),
    files.map (fun file => BStmt.op (BackupOp.sys ("dvc add " ++ file))),
    rfl, ?_, ?_, by simp, by simp⟩
  · refine List.all_eq_true.mpr (fun s hs => ?_)
    obtain ⟨name, _, rfl⟩ := List.mem_map.mp hs
    rfl
  · refine List.all_eq_true.mpr (fun s hs => ?_)
    obtain ⟨file, _, rfl⟩ := List.mem_map.mp hs
    show startsWithL "dvc add ".data ("dvc add " ++ file).data = true
    rw [String.data_append]
    exact startsWithL_self_append _ _

/-- Unfolding equation of `evaluate_records` on a non-empty record list:
evaluate the head against its prediction, then the tail. -/
theorem evaluate_records_cons (classify : String → List (String × ℚ))
    (r : TCRecord) (rs : List TCRecord) (idx : Nat) :
    evaluate_records classify (r :: rs) idx = (do
      let b ← evaluateOne idx (classify r.text) r
      let bs ← evaluate_records classify rs idx
      pure (b :: bs)) := by
  simp only [evaluate_records, List.map_cons, List.zip_cons_cons,
    List.mapM_cons]

/-- A successful `evaluateOne` produces exactly the conditional update of
the source loop body. -/
theorem evaluateOne_eq (idx : Nat) (pred : List (String × ℚ))
    (rec orec : TCRecord) (h : evaluateOne idx pred rec = some orec) :
    ∃ m, pyMaxBySnd pred = some m ∧
      orec = { (if m.2 > CERTAINTY_THRESHOLD then
          { rec with annotation := some m.1, status := "Validated" }
        else rec) with
        prediction := pred, metadata := [("idx", idx)] } := by
  cases hm : pyMaxBySnd pred with
  | none => simp [evaluateOne, hm] at h
  | some m =>
    refine ⟨m, rfl, ?_⟩
    simp [evaluateOne, hm] at h
    exact h.symm

/-- A successful `evaluateOne` against the record's own prediction list
satisfies the per-record contract. -/
theorem evaluateOne_prop (classify : String → List (String × ℚ))
    (idx : Nat) (rec orec : TCRecord)
    (h : evaluateOne idx (classify rec.text) rec = some orec) :
    evalRecProp classify idx rec orec := by
  obtain ⟨m, hm, horec⟩ := evaluateOne_eq idx (classify rec.text) rec orec h
  subst horec
  by_cases hthr : m.2 > CERTAINTY_THRESHOLD
  · exact ⟨m, hm, by simp [hthr], by simp [hthr], by simp [hthr],
      fun _ => ⟨by simp [hthr], by simp [hthr]⟩,
      fun hc => absurd hthr hc⟩
  · exact ⟨m, hm, by simp [hthr], by simp [hthr], by simp [hthr],
      fun hc => absurd hc hthr,
      fun _ => ⟨by simp [hthr], by simp [hthr]⟩⟩

/-- C2: when `evaluate_records` returns, the output records correspond
one-to-one to the inputs: every record's `prediction` is set to the model's
score list and its `metadata` to `{"idx": idx}`; exactly the records whose
top prediction score strictly exceeds the `0.9` certainty threshold are
auto-validated (annotation set to the argmax label, status to
`"Validated"`), and the rest keep their annotation and status for human
labeling. -/
theorem evaluate_records_spec (classify : String → List (String × ℚ))
    (records : List TCRecord) (idx : Nat) (out : List TCRecord)
    (h : evaluate_records classify records idx = some out) :
    List.Forall₂ (evalRecProp classify idx) records out := by
  induction records generalizing out with
  | nil =>
    have h' : (some [] : Option (List TCRecord)) = some out := h
    cases h'
    exact List.Forall₂.nil
  | cons r rs ih =>
    rw [evaluate_records_cons] at h
    rcases Option.bind_eq_some.mp h with ⟨b, hb, h2⟩
    rcases Option.bind_eq_some.mp h2 with ⟨bs, hbs, h3⟩
    simp only [Option.pure_def, Option.some.injEq] at h3
    subst h3
    exact List.Forall₂.cons (evaluateOne_prop classify idx r b hb)
      (ih bs hbs)

/-- C2 witness: the stub classifier validates the certain record and leaves
the uncertain one for human labeling. -/
theorem evaluate_records_spec_witness :
    List.Forall₂ (evalRecProp wClassify 0)
      [wRecCertain, wRecUncertain] [wOutCertain, wOutUncertain] :=
  evaluate_records_spec wClassify [wRecCertain, wRecUncertain] 0
    [wOutCertain, wOutUncertain] (by decide)

end Argilla
